import Mathlib

/-!
Shallow embedding of the analytics core of the location-tracker-form
repository (src/lib/analyticsServices.ts, src/lib/services.ts and the
monthly-suggestion logic of src/components/ReportForm.tsx), together with
proofs of the behavioural properties claimed for it.

Modelling conventions:
- JavaScript numbers are modelled as rationals.
- A JavaScript Date is modelled as a civil instant: a day index plus the
  milliseconds elapsed within that day, in a single fixed wall-clock zone.
- JavaScript objects and Maps used as dictionaries are modelled as
  association lists in insertion order: writing an existing key updates it
  in place, writing a new key appends it.
- The Firestore collaborator is modelled as a value of type Except or as a
  plain list of records handed to the pure filtering code, mirroring the
  fact that all date filtering, sorting and aggregation happen in memory.
-/

set_option maxHeartbeats 1000000

namespace LocationTracker

/-! Specification-side aggregates, written as direct sums over the input,
against which the dictionary-building folds are proved. -/

/-- Civil instant as used by the JavaScript Date values in the app: a day
index (days since the Unix epoch in wall-clock time) together with the
milliseconds elapsed within that day. -/
structure DateTime where
  day : Int
  msOfDay : Int
deriving DecidableEq

/-- Date.prototype.getTime: milliseconds since the epoch. -/
def DateTime.getTime (d : DateTime) : Int :=
  d.day * 86400000 + d.msOfDay

/-- Date.prototype.getDay: 0 = Sunday, ..., 6 = Saturday; day index 0
(1970-01-01) was a Thursday. -/
def DateTime.getDay (d : DateTime) : Int :=
  (d.day + 4) % 7

/-- Fields of the MetricData record (src/types/index.ts) consulted by the
verified functions; value and targetValue are optional in the TypeScript
type. The target, trackingMethod, completed and previousValue fields are
never read by the analytics core and are omitted. -/
structure MetricData where
  id : String
  title : String
  frequency : String
  value : Option ℚ
  targetValue : Option ℚ
deriving DecidableEq

/-- The WeeklyReport record (src/types/index.ts); reportText is dropped as
it is never read by the analytics core. -/
structure WeeklyReport where
  id : String
  userId : String
  metrics : List MetricData
  createdAt : DateTime
  weekEndingDate : DateTime
  status : String
  archived : Bool
deriving DecidableEq

/-- DEFAULT_METRICS from src/lib/services.ts, restricted to the modelled
fields. -/
def DEFAULT_METRICS : List MetricData :=
  [⟨"1", "New Accounts Outreach", "Weekly", some 0, some 10⟩,
   ⟨"2", "Acres Secured", "Monthly", some 0, some 5⟩,
   ⟨"3", "Quotations Sent", "Monthly", some 0, some 20⟩,
   ⟨"4", "Quotation Closing Rate", "Monthly", some 0, some 20⟩]

/-- Write to a JavaScript object or Map used as a dictionary: an existing
key is updated in place, a new key is appended at the end, preserving
insertion order. -/
def recSet {κ α : Type} [DecidableEq κ] : List (κ × α) → κ → (Option α → α) → List (κ × α)
  | [], k, f => [(k, f none)]
  | (k', v) :: rest, k, f =>
    if k' = k then (k', f (some v)) :: rest else (k', v) :: recSet rest k f

/-- Read a key from a dictionary modelled as an association list. -/
def recGet {κ α : Type} [DecidableEq κ] : List (κ × α) → κ → Option α
  | [], _ => none
  | (k', v) :: rest, k => if k' = k then some v else recGet rest k

/-- Resolved time window returned by getDateRange. -/
structure DateRange where
  startDate : DateTime
  endDate : DateTime
deriving DecidableEq

/-- getDateRange from src/lib/analyticsServices.ts: maps a named time frame
and the current instant to a concrete window. endDate is today at
23:59:59.999; startDate depends on the time frame, with the switch default
matching the month case. -/
def getDateRange (timeFrame : String) (now : DateTime) : DateRange :=
  let endDate : DateTime := ⟨now.day, 86399999⟩
  let startDate : DateTime :=
    if timeFrame = "week" then
      let currentDay := now.getDay
      let daysSinceMonday := if currentDay = 0 then 6 else currentDay - 1
      ⟨now.day - daysSinceMonday, 0⟩
    else if timeFrame = "month" then ⟨now.day - 30, 0⟩
    else if timeFrame = "quarter" then ⟨now.day - 90, 0⟩
    else if timeFrame = "halfYear" then ⟨now.day - 180, 0⟩
    else if timeFrame = "year" then ⟨now.day - 365, 0⟩
    else ⟨now.day - 30, 0⟩
  ⟨startDate, endDate⟩

/-- The in-memory date filter of getReportsByDateRange: keep a report when
its weekEndingDate or its createdAt lies within the window, inclusive. -/
def reportInRange (startDate endDate : DateTime) (report : WeeklyReport) : Bool :=
  let weekEndTime := report.weekEndingDate.getTime
  let createdTime := report.createdAt.getTime
  (decide (startDate.getTime ≤ weekEndTime) && decide (weekEndTime ≤ endDate.getTime)) ||
  (decide (startDate.getTime ≤ createdTime) && decide (createdTime ≤ endDate.getTime))

/-- Comparator used by the in-memory sort of getReportsByDateRange:
descending by weekEndingDate. -/
def byWeekEndingDesc (a b : WeeklyReport) : Bool :=
  decide (b.weekEndingDate.getTime ≤ a.weekEndingDate.getTime)

/-- The pure core of getReportsByDateRange from src/lib/analyticsServices.ts:
the collaborator returns every submitted report, then the core filters by
date range in memory and sorts descending by weekEndingDate. -/
def getReportsByDateRange (reports : List WeeklyReport) (startDate endDate : DateTime) :
    List WeeklyReport :=
  (reports.filter (reportInRange startDate endDate)).mergeSort byWeekEndingDesc

/-- Result shape of getMetricsPerformance. The record dictionaries are
modelled as insertion-ordered association lists. -/
structure MetricsPerformance where
  byDate : List (Int × List (String × ℚ))
  totals : List (String × ℚ)
  averages : List (String × ℚ)
  completion : List (String × ℚ)
deriving DecidableEq

/-- One step of the per-metric accumulation inside getMetricsPerformance:
the running byDate bucket for the report day and the running per-title
totals (sum, target, count). Missing value or targetValue defaults to 0. -/
def perfByDateStep (dateKey : Int) (byDate : List (Int × List (String × ℚ)))
    (metric : MetricData) : List (Int × List (String × ℚ)) :=
  let value := metric.value.getD 0
  recSet byDate dateKey
    (fun o => recSet (o.getD []) metric.title (fun ov => ov.getD 0 + value))

/-- Totals accumulation step of getMetricsPerformance. -/
def perfTotalsStep (totals : List (String × (ℚ × ℚ × ℕ))) (metric : MetricData) :
    List (String × (ℚ × ℚ × ℕ)) :=
  let value := metric.value.getD 0
  let targetValue := metric.targetValue.getD 0
  recSet totals metric.title (fun o =>
    match o with
    | none => (0 + value, 0 + targetValue, 0 + 1)
    | some (s, t, c) => (s + value, t + targetValue, c + 1))

/-- Per-report processing of getMetricsPerformance: ensure a byDate bucket
exists for the createdAt day, then fold every metric entry of the report. -/
def processPerfReport
    (st : List (Int × List (String × ℚ)) × List (String × (ℚ × ℚ × ℕ)))
    (report : WeeklyReport) :
    List (Int × List (String × ℚ)) × List (String × (ℚ × ℚ × ℕ)) :=
  let dateKey := report.createdAt.day
  let st1 := (recSet st.1 dateKey (fun o => o.getD []), st.2)
  report.metrics.foldl
    (fun acc metric => (perfByDateStep dateKey acc.1 metric, perfTotalsStep acc.2 metric))
    st1

/-- getMetricsPerformance from src/lib/analyticsServices.ts, with the report
fetch factored out: fold all reports, then emit the day-sorted byDate list
and the totals, averages and completion dictionaries. -/
def getMetricsPerformance (reports : List WeeklyReport) : MetricsPerformance :=
  let st := reports.foldl processPerfReport ([], [])
  let byDate := ((st.1.map Prod.fst).mergeSort (fun a b => decide (a ≤ b))).map
    (fun date => (date, (recGet st.1 date).getD []))
  let totals := st.2.map (fun p => (p.1, p.2.1))
  let averages := st.2.map (fun p => (p.1, if 0 < p.2.2.2 then p.2.1 / (p.2.2.2 : ℚ) else 0))
  let completion := st.2.map (fun p => (p.1, if 0 < p.2.2.1 then p.2.1 / p.2.2.1 * 100 else 0))
  ⟨byDate, totals, averages, completion⟩

/-- One point of the per-metric chart series. -/
structure SeriesPoint where
  date : Int
  value : ℚ
  target : ℚ
deriving DecidableEq

/-- Result shape of getPerformanceByMetric. -/
structure MetricPerformance where
  data : List SeriesPoint
  total : ℚ
  average : ℚ
  completionRate : ℚ
deriving DecidableEq

/-- The fallback target of getPerformanceByMetric: the configured
targetValue of the metric definition with the given title, or 10 when the
metric is unknown or its configured target is absent or zero (JavaScript
truthiness of defaultMetric?.targetValue). -/
def defaultTargetFor (metricTitle : String) : ℚ :=
  match DEFAULT_METRICS.find? (fun m => m.title = metricTitle) with
  | some dm =>
    match dm.targetValue with
    | some tv => if tv = 0 then 10 else tv
    | none => 10
  | none => 10

/-- The dataMap write of getPerformanceByMetric: a first entry for a day is
stored as is; a second entry for the same day is merged by summing value
and taking the max target. -/
def addToDataMap (dataMap : List (Int × SeriesPoint)) (dateKey : Int) (value target : ℚ) :
    List (Int × SeriesPoint) :=
  recSet dataMap dateKey (fun o =>
    match o with
    | some existing => ⟨dateKey, existing.value + value, max existing.target target⟩
    | none => ⟨dateKey, value, target⟩)

/-- Per-report processing of getPerformanceByMetric: find the metric entry
by title (reports lacking it are skipped), default a non-numeric value to 0
and a non-numeric targetValue to the configured fallback, merge into the
day map and bump the running totals. -/
def processMetricReport (metricTitle : String) (defTarget : ℚ)
    (st : List (Int × SeriesPoint) × ℚ × ℚ × ℚ) (report : WeeklyReport) :
    List (Int × SeriesPoint) × ℚ × ℚ × ℚ :=
  let dateKey := report.weekEndingDate.day
  match report.metrics.find? (fun m => m.title = metricTitle) with
  | some metric =>
    let value := metric.value.getD 0
    let target := metric.targetValue.getD defTarget
    (addToDataMap st.1 dateKey value target,
      st.2.1 + value, st.2.2.1 + target, st.2.2.2 + 1)
  | none => st

/-- getPerformanceByMetric from src/lib/analyticsServices.ts, with the
report fetch factored out: fold the reports, sort the day map values
ascending by date, and derive total, average and completion rate. An empty
series yields the all-zero result. -/
def getPerformanceByMetric (reports : List WeeklyReport) (metricTitle : String) :
    MetricPerformance :=
  let defTarget := defaultTargetFor metricTitle
  let st := reports.foldl (processMetricReport metricTitle defTarget) ([], 0, 0, 0)
  let totalValue := st.2.1
  let totalTarget := st.2.2.1
  let count := st.2.2.2
  let data := (st.1.map Prod.snd).mergeSort (fun a b => decide (a.date ≤ b.date))
  let average := if 0 < count then totalValue / count else 0
  let completionRate := if 0 < totalTarget then totalValue / totalTarget * 100 else 0
  if data = [] then ⟨[], 0, 0, 0⟩
  else ⟨data.map (fun p => ⟨p.date, p.value, p.target⟩), totalValue, average, completionRate⟩

/-- Entry of the achievement dictionary built by
calculateAchievementPercentage. -/
structure Achievement where
  percentage : ℚ
  status : String
deriving DecidableEq

/-- Accumulation step of calculateAchievementPercentage: missing value or
targetValue defaults to 0; an unseen title starts from (0, 0). -/
def accumAchieve (perf : List (String × (ℚ × ℚ))) (metric : MetricData) :
    List (String × (ℚ × ℚ)) :=
  let value := metric.value.getD 0
  let targetValue := metric.targetValue.getD 0
  recSet perf metric.title (fun o =>
    match o with
    | none => (0 + value, 0 + targetValue)
    | some (s, t) => (s + value, t + targetValue))

/-- Fallback stage of calculateAchievementPercentage: a title whose
accumulated target is 0 takes the configured default target, provided the
title names a default metric whose targetValue is present and non-zero
(JavaScript truthiness of defaultMetric.targetValue). -/
def achieveFallback (title : String) (st : ℚ × ℚ) : ℚ × ℚ :=
  if st.2 = 0 then
    match DEFAULT_METRICS.find? (fun m => m.title = title) with
    | some dm =>
      match dm.targetValue with
      | some tv => if tv = 0 then st else (st.1, tv)
      | none => st
    | none => st
  else st

/-- Final stage of calculateAchievementPercentage: clamped percentage and
three-level status. -/
def achieveFinalize (st : ℚ × ℚ) : Achievement :=
  let percentage := if 0 < st.2 then min 100 (st.1 / st.2 * 100) else 0
  let status :=
    if percentage ≥ 100 then "ahead"
    else if percentage ≥ 75 then "on-track"
    else "behind"
  ⟨percentage, status⟩

/-- calculateAchievementPercentage from src/lib/analyticsServices.ts:
initialise every default metric with zero sum and target, accumulate all
report entries, fall back to the configured default target for titles whose
accumulated target is 0, then derive a clamped percentage and a
three-level status. -/
def calculateAchievementPercentage (reports : List WeeklyReport) :
    List (String × Achievement) :=
  let init : List (String × (ℚ × ℚ)) := DEFAULT_METRICS.map (fun m => (m.title, (0, 0)))
  let perf := reports.foldl (fun acc report => report.metrics.foldl accumAchieve acc) init
  let perf2 := perf.map (fun p => (p.1, achieveFallback p.1 p.2))
  perf2.map (fun p => (p.1, achieveFinalize p.2))

/-- getCurrentWeekOfMonth from src/components/ReportForm.tsx: weeks of the
month numbered from 1, from the day of the month. -/
def getCurrentWeekOfMonth (dayOfMonth : Int) : Int :=
  (dayOfMonth - 1) / 7 + 1

/-- Entry of the monthly progress dictionary of calculateMonthlyProgress. -/
structure MonthlyProgressEntry where
  value : ℚ
  targetValue : ℚ
  frequency : String
deriving DecidableEq

/-- The Firestore query of getCurrentMonthReports from src/lib/services.ts,
modelled in memory: submitted reports of the given user whose createdAt
lies within the current calendar month, ascending by createdAt. -/
def getCurrentMonthReports (allReports : List WeeklyReport) (userName : String)
    (firstDayOfMonth lastDayOfMonth : DateTime) : List WeeklyReport :=
  (allReports.filter (fun r =>
      decide (r.userId = userName) && decide (r.status = "submitted") &&
      decide (firstDayOfMonth.getTime ≤ r.createdAt.getTime) &&
      decide (r.createdAt.getTime ≤ lastDayOfMonth.getTime))).mergeSort
    (fun a b => decide (a.createdAt.getTime ≤ b.createdAt.getTime))

/-- One step of calculateMonthlyProgress: a metric entry of Monthly
frequency accumulates its (defaulted) value under its title, initialising
the entry from zero and the metric target at first sight; entries of any
other frequency are ignored. -/
def monthlyStep (prog : List (String × MonthlyProgressEntry)) (metric : MetricData) :
    List (String × MonthlyProgressEntry) :=
  if metric.frequency = "Monthly" then
    recSet prog metric.title (fun o =>
      match o with
      | none => ⟨0 + metric.value.getD 0, metric.targetValue.getD 0, "Monthly"⟩
      | some e => ⟨e.value + metric.value.getD 0, e.targetValue, e.frequency⟩)
  else prog

/-- calculateMonthlyProgress from src/lib/services.ts: accumulate the values
of metric entries whose frequency is Monthly across the given reports,
keyed by metric title; the targetValue recorded for a title is the one of
its first encountered entry. -/
def calculateMonthlyProgress (monthlyReports : List WeeklyReport) :
    List (String × MonthlyProgressEntry) :=
  monthlyReports.foldl
    (fun prog report => report.metrics.foldl monthlyStep prog)
    []

/-- getSuggestedWeeklyValue from src/components/ReportForm.tsx: for a
Monthly metric, suggest the ceiling of the remaining monthly amount divided
by the weeks left in the month, and 0 when no week is left. -/
def getSuggestedWeeklyValue (metric : MetricData)
    (monthlyProgress : List (String × MonthlyProgressEntry)) (dayOfMonth : Int) : ℚ :=
  if metric.frequency ≠ "Monthly" then 0
  else
    let targetValue := metric.targetValue.getD 0
    let weekNumber := getCurrentWeekOfMonth dayOfMonth
    let previousProgress :=
      match recGet monthlyProgress metric.title with
      | some e => e.value
      | none => 0
    let remaining := max 0 (targetValue - previousProgress)
    let weeksLeft := 5 - weekNumber
    if weeksLeft ≤ 0 then 0
    else ((⌈remaining / (weeksLeft : ℚ)⌉ : ℤ) : ℚ)

/-- Outcome of the single-report fetch getReportById from
src/lib/services.ts: an existing document is returned, a missing one
surfaces the error Report not found, and a collaborator failure is
rethrown. -/
def getReportById (fetch : Except String (Option WeeklyReport)) : Except String WeeklyReport :=
  match fetch with
  | .ok (some r) => .ok r
  | .ok none => .error "Report not found"
  | .error e => .error e

/-- getReportsByDateRange including its catch-all handler: a collaborator
failure degrades to the empty report list. -/
def getReportsByDateRangeSafe (fetch : Except String (List WeeklyReport))
    (startDate endDate : DateTime) : List WeeklyReport :=
  match fetch with
  | .ok reports => getReportsByDateRange reports startDate endDate
  | .error _ => []

/-- getMetricsPerformance on top of the failure-absorbing report fetch. -/
def getMetricsPerformanceSafe (fetch : Except String (List WeeklyReport))
    (startDate endDate : DateTime) : MetricsPerformance :=
  getMetricsPerformance (getReportsByDateRangeSafe fetch startDate endDate)

/-- getPerformanceByMetric on top of the failure-absorbing report fetch. -/
def getPerformanceByMetricSafe (fetch : Except String (List WeeklyReport))
    (startDate endDate : DateTime) (metricTitle : String) : MetricPerformance :=
  getPerformanceByMetric (getReportsByDateRangeSafe fetch startDate endDate) metricTitle

/-- Sum of the (defaulted) values of the entries with the given title. -/
def metricsValueSum (title : String) (metrics : List MetricData) : ℚ :=
  ((metrics.filter (fun m => m.title = title)).map (fun m => m.value.getD 0)).sum

/-- Sum of the (defaulted) target values of the entries with the given
title. -/
def metricsTargetSum (title : String) (metrics : List MetricData) : ℚ :=
  ((metrics.filter (fun m => m.title = title)).map (fun m => m.targetValue.getD 0)).sum

/-- Number of entries with the given title. -/
def metricsCount (title : String) (metrics : List MetricData) : ℕ :=
  (metrics.filter (fun m => m.title = title)).length

/-- Sum of the values of all entries with the given title across reports. -/
def sumValues (title : String) (reports : List WeeklyReport) : ℚ :=
  (reports.map (fun r => metricsValueSum title r.metrics)).sum

/-- Sum of the target values of all entries with the given title across
reports. -/
def sumTargets (title : String) (reports : List WeeklyReport) : ℚ :=
  (reports.map (fun r => metricsTargetSum title r.metrics)).sum

/-- Number of entries with the given title across reports. -/
def countEntries (title : String) (reports : List WeeklyReport) : ℕ :=
  (reports.map (fun r => metricsCount title r.metrics)).sum

/-- A submitted report carrying a negative metric value. -/
def negativeValueReport : WeeklyReport :=
  ⟨"r1", "alice", [⟨"2", "Acres Secured", "Monthly", some (-5), some 5⟩],
    ⟨0, 0⟩, ⟨0, 0⟩, "submitted", false⟩

/-- Value contributed by a report to a metric series: the defaulted value of
its matching entry, 0 when the report lacks the metric. -/
def entryValue (metricTitle : String) (r : WeeklyReport) : ℚ :=
  match r.metrics.find? (fun m => m.title = metricTitle) with
  | some mE => mE.value.getD 0
  | none => 0

/-- Target contributed by a report to a metric series: the defaulted target
of its matching entry, 0 when the report lacks the metric. -/
def entryTarget (metricTitle : String) (r : WeeklyReport) : ℚ :=
  match r.metrics.find? (fun m => m.title = metricTitle) with
  | some mE => mE.targetValue.getD (defaultTargetFor metricTitle)
  | none => 0

/-- Sum of per-report contributed values for a metric. -/
def entryValueSum (metricTitle : String) (reports : List WeeklyReport) : ℚ :=
  (reports.map (entryValue metricTitle)).sum

/-- Sum of per-report contributed targets for a metric: one addition per
report containing the metric. -/
def entryTargetSum (metricTitle : String) (reports : List WeeklyReport) : ℚ :=
  (reports.map (entryTarget metricTitle)).sum

/-- Number of reports containing the metric. -/
def entryCount (metricTitle : String) (reports : List WeeklyReport) : ℕ :=
  (reports.map (fun r =>
    match r.metrics.find? (fun m => m.title = metricTitle) with
    | some _ => 1
    | none => 0)).sum

/-- Submitted report of one user with a same-day partial entry for Acres
Secured: value 2 against target 5. -/
def sameDayReportA : WeeklyReport :=
  ⟨"a", "alice", [⟨"2", "Acres Secured", "Monthly", some 2, some 5⟩],
    ⟨0, 0⟩, ⟨0, 3600000⟩, "submitted", false⟩

/-- Second submitted report on the same day with another Acres Secured
entry: value 3 against target 10. -/
def sameDayReportB : WeeklyReport :=
  ⟨"b", "bob", [⟨"2", "Acres Secured", "Monthly", some 3, some 10⟩],
    ⟨0, 0⟩, ⟨0, 7200000⟩, "submitted", false⟩

/-- A submitted report whose Quotations Sent entry has no numeric target. -/
def noTargetReport : WeeklyReport :=
  ⟨"w", "alice", [⟨"3", "Quotations Sent", "Monthly", some 7, none⟩],
    ⟨0, 0⟩, ⟨12, 0⟩, "submitted", false⟩

/-- A submitted report whose Acres Secured value 10 exceeds its target 5. -/
def excessReport : WeeklyReport :=
  ⟨"e", "alice", [⟨"2", "Acres Secured", "Monthly", some 10, some 5⟩],
    ⟨0, 0⟩, ⟨0, 0⟩, "submitted", false⟩

/-- The monthly progress value the editing form reads for a metric title:
the accumulated value when the title is tracked, 0 otherwise. -/
def progValue (prog : List (String × MonthlyProgressEntry)) (title : String) : ℚ :=
  match recGet prog title with
  | some e => e.value
  | none => 0

/-- Sum of the values of Monthly-frequency entries with the given title. -/
def monthlyMetricsSum (title : String) (metrics : List MetricData) : ℚ :=
  ((metrics.filter (fun m => decide (m.frequency = "Monthly") && decide (m.title = title))).map
    (fun m => m.value.getD 0)).sum

/-- Sum of the values of Monthly-frequency entries with the given title
across reports. -/
def monthlySumValues (title : String) (reports : List WeeklyReport) : ℚ :=
  (reports.map (fun r => monthlyMetricsSum title r.metrics)).sum

/-- A submitted report of user alice created on day 5 with Acres Secured
monthly progress 4 of 5. -/
def aliceReport : WeeklyReport :=
  ⟨"m1", "alice", [⟨"2", "Acres Secured", "Monthly", some 4, some 5⟩],
    ⟨5, 0⟩, ⟨6, 0⟩, "submitted", false⟩

theorem recGet_recSet_self {κ α : Type} [DecidableEq κ]
    (l : List (κ × α)) (k : κ) (f : Option α → α) :
    recGet (recSet l k f) k = some (f (recGet l k)) := by
  induction l with
  | nil => simp [recSet, recGet]
  | cons p rest ih =>
    obtain ⟨k', v⟩ := p
    by_cases h : k' = k <;> simp [recSet, recGet, h, ih]

theorem recGet_recSet_ne {κ α : Type} [DecidableEq κ]
    (l : List (κ × α)) (k k' : κ) (f : Option α → α) (h : k' ≠ k) :
    recGet (recSet l k f) k' = recGet l k' := by
  induction l with
  | nil => simp [recSet, recGet, Ne.symm h]
  | cons p rest ih =>
    obtain ⟨k'', v⟩ := p
    by_cases h2 : k'' = k
    · subst h2
      simp [recSet, recGet, Ne.symm h]
    · simp [recSet, recGet, h2, ih]

theorem recSet_recSet {κ α : Type} [DecidableEq κ]
    (l : List (κ × α)) (k : κ) (f g : Option α → α) :
    recSet (recSet l k f) k g = recSet l k (fun o => g (some (f o))) := by
  induction l with
  | nil => simp [recSet]
  | cons p rest ih =>
    obtain ⟨k', v⟩ := p
    by_cases h : k' = k <;> simp [recSet, h, ih]

theorem recSet_ne_nil {κ α : Type} [DecidableEq κ]
    (l : List (κ × α)) (k : κ) (f : Option α → α) :
    recSet l k f ≠ [] := by
  cases l with
  | nil => simp [recSet]
  | cons p rest =>
    obtain ⟨k', v⟩ := p
    by_cases h : k' = k <;> simp [recSet, h]

theorem recGet_map {κ α β : Type} [DecidableEq κ] (g : κ → α → β)
    (l : List (κ × α)) (k : κ) :
    recGet (l.map (fun p => (p.1, g p.1 p.2))) k = (recGet l k).map (g k) := by
  induction l with
  | nil => simp [recGet]
  | cons p rest ih =>
    obtain ⟨k', v⟩ := p
    by_cases h : k' = k
    · subst h
      simp [recGet]
    · simp [recGet, h, ih]

theorem recGet_foldl_accumAchieve (title : String) :
    ∀ (metrics : List MetricData) (perf : List (String × (ℚ × ℚ))) (s t : ℚ),
      recGet perf title = some (s, t) →
      recGet (metrics.foldl accumAchieve perf) title =
        some (s + metricsValueSum title metrics, t + metricsTargetSum title metrics) := by
  intro metrics
  induction metrics with
  | nil =>
    intro perf s t h
    simp [metricsValueSum, metricsTargetSum, h]
  | cons m ms ih =>
    intro perf s t h
    by_cases hm : m.title = title
    · have h1 : recGet (accumAchieve perf m) title =
          some (s + m.value.getD 0, t + m.targetValue.getD 0) := by
        unfold accumAchieve
        rw [hm, recGet_recSet_self, h]
      rw [List.foldl_cons, ih _ _ _ h1]
      simp [metricsValueSum, metricsTargetSum, List.filter_cons, hm]
      constructor <;> ring
    · have h1 : recGet (accumAchieve perf m) title = some (s, t) := by
        unfold accumAchieve
        rw [recGet_recSet_ne _ _ _ _ (fun hc => hm hc.symm), h]
      rw [List.foldl_cons, ih _ _ _ h1]
      simp [metricsValueSum, metricsTargetSum, List.filter_cons, hm]

theorem recGet_foldl_achieveReports (title : String) :
    ∀ (reports : List WeeklyReport) (perf : List (String × (ℚ × ℚ))) (s t : ℚ),
      recGet perf title = some (s, t) →
      recGet (reports.foldl (fun acc report => report.metrics.foldl accumAchieve acc) perf)
          title =
        some (s + sumValues title reports, t + sumTargets title reports) := by
  intro reports
  induction reports with
  | nil =>
    intro perf s t h
    simp [sumValues, sumTargets, h]
  | cons r rs ih =>
    intro perf s t h
    have h1 := recGet_foldl_accumAchieve title r.metrics perf s t h
    rw [List.foldl_cons, ih _ _ _ h1]
    simp [sumValues, sumTargets]
    constructor <;> ring

theorem recGet_map_fallback (l : List (String × (ℚ × ℚ))) (k : String) :
    recGet (l.map (fun p => (p.1, achieveFallback p.1 p.2))) k =
      (recGet l k).map (fun v => achieveFallback k v) :=
  recGet_map (fun k v => achieveFallback k v) l k

theorem recGet_map_finalize (l : List (String × (ℚ × ℚ))) (k : String) :
    recGet (l.map (fun p => (p.1, achieveFinalize p.2))) k =
      (recGet l k).map achieveFinalize :=
  recGet_map (fun _ v => achieveFinalize v) l k

theorem recGet_calcAchieve (reports : List WeeklyReport) (title : String)
    (h : recGet (DEFAULT_METRICS.map (fun m => (m.title, ((0 : ℚ), (0 : ℚ))))) title =
      some (0, 0)) :
    recGet (calculateAchievementPercentage reports) title =
      some (achieveFinalize (achieveFallback title
        (sumValues title reports, sumTargets title reports))) := by
  simp only [calculateAchievementPercentage]
  rw [recGet_map_finalize, recGet_map_fallback,
    recGet_foldl_achieveReports title reports _ 0 0 h]
  simp

theorem countEntries_eq_zero {title : String} {reports : List WeeklyReport}
    (h : countEntries title reports = 0) :
    sumValues title reports = 0 ∧ sumTargets title reports = 0 := by
  induction reports with
  | nil => simp [sumValues, sumTargets]
  | cons r rs ih =>
    rw [countEntries, List.map_cons, List.sum_cons] at h
    have h1 : metricsCount title r.metrics = 0 := by omega
    have h2 : countEntries title rs = 0 := by rw [countEntries]; omega
    have hnil : r.metrics.filter (fun m => m.title = title) = [] :=
      List.length_eq_zero.mp h1
    obtain ⟨hv, ht⟩ := ih h2
    constructor
    · rw [sumValues, List.map_cons, List.sum_cons, metricsValueSum, hnil]
      simp only [List.map_nil, List.sum_nil, zero_add]
      exact hv
    · rw [sumTargets, List.map_cons, List.sum_cons, metricsTargetSum, hnil]
      simp only [List.map_nil, List.sum_nil, zero_add]
      exact ht

theorem achieve_main (reports : List WeeklyReport) (title : String) (tv : ℚ)
    (h0 : recGet (DEFAULT_METRICS.map (fun m => (m.title, ((0 : ℚ), (0 : ℚ))))) title =
      some (0, 0))
    (h2 : ∀ s : ℚ, achieveFallback title (s, 0) = (s, tv))
    (htv : 0 < tv) :
    ∃ (a : Achievement) (t' : ℚ),
      recGet (calculateAchievementPercentage reports) title = some a ∧
      t' = (if sumTargets title reports = 0 then tv else sumTargets title reports) ∧
      a.percentage = (if 0 < t' then min 100 (sumValues title reports / t' * 100) else 0) ∧
      a.percentage ≤ 100 ∧
      (0 ≤ sumValues title reports → 0 ≤ a.percentage) ∧
      a.status = (if 100 ≤ a.percentage then "ahead"
                  else if 75 ≤ a.percentage then "on-track" else "behind") ∧
      (countEntries title reports = 0 → a.percentage = 0 ∧ a.status = "behind") := by
  have hmain := recGet_calcAchieve reports title h0
  by_cases ht : sumTargets title reports = 0
  · rw [ht, h2] at hmain
    refine ⟨_, tv, hmain, by rw [ht]; simp, ?_, ?_, ?_, ?_, ?_⟩
    · simp [achieveFinalize, htv]
    · simp only [achieveFinalize, htv, if_pos]
      exact min_le_left _ _
    · intro hs
      simp only [achieveFinalize, htv, if_pos]
      refine le_min (by norm_num) ?_
      positivity
    · simp [achieveFinalize]
    · intro hc
      obtain ⟨hv, _⟩ := countEntries_eq_zero hc
      constructor
      · norm_num [achieveFinalize, htv, hv]
      · norm_num [achieveFinalize, htv, hv]
  · have hfb : achieveFallback title (sumValues title reports, sumTargets title reports) =
        (sumValues title reports, sumTargets title reports) := by
      simp [achieveFallback, ht]
    rw [hfb] at hmain
    refine ⟨_, sumTargets title reports, hmain, by rw [if_neg ht], ?_, ?_, ?_, ?_, ?_⟩
    · simp [achieveFinalize]
    · by_cases hpos : 0 < sumTargets title reports
      · simp only [achieveFinalize, hpos, if_pos]
        exact min_le_left _ _
      · simp [achieveFinalize, hpos]
    · intro hs
      by_cases hpos : 0 < sumTargets title reports
      · simp only [achieveFinalize, hpos, if_pos]
        refine le_min (by norm_num) ?_
        positivity
      · simp [achieveFinalize, hpos]
    · simp [achieveFinalize]
    · intro hc
      exact absurd (countEntries_eq_zero hc).2 ht

/-- C1 (amended): for every list of reports, calculateAchievementPercentage
returns a mapping with an entry for every metric of the default
metric-definition list, even when no report contributes to it. The
percentage of such an entry equals min(100, sum/target*100) for the
accumulated target when that target is positive, the accumulated target
falling back to the configured default target when it is 0, and the
percentage is 0 otherwise. The percentage never exceeds 100, and it lies in
the interval from 0 to 100 whenever the accumulated sum is nonnegative (in
particular whenever every metric value is nonnegative). The status is ahead
at percentage at least 100, on-track at least 75, and behind otherwise, so
a metric with zero matching reports gets percentage 0 and status behind. -/
theorem achievementCalculator_covers_default_metrics
    (reports : List WeeklyReport) (m : MetricData) (hm : m ∈ DEFAULT_METRICS) :
    ∃ (a : Achievement) (t' : ℚ),
      recGet (calculateAchievementPercentage reports) m.title = some a ∧
      t' = (if sumTargets m.title reports = 0 then m.targetValue.getD 0
            else sumTargets m.title reports) ∧
      a.percentage = (if 0 < t' then min 100 (sumValues m.title reports / t' * 100) else 0) ∧
      a.percentage ≤ 100 ∧
      (0 ≤ sumValues m.title reports → 0 ≤ a.percentage) ∧
      a.status = (if 100 ≤ a.percentage then "ahead"
                  else if 75 ≤ a.percentage then "on-track" else "behind") ∧
      (countEntries m.title reports = 0 → a.percentage = 0 ∧ a.status = "behind") := by
  fin_cases hm
  · exact achieve_main reports "New Accounts Outreach" 10 (by rfl) (fun s => rfl) (by norm_num)
  · exact achieve_main reports "Acres Secured" 5 (by rfl) (fun s => rfl) (by norm_num)
  · exact achieve_main reports "Quotations Sent" 20 (by rfl) (fun s => rfl) (by norm_num)
  · exact achieve_main reports "Quotation Closing Rate" 20 (by rfl) (fun s => rfl) (by norm_num)

/-- Witness for C1 at the empty report list and the Acres Secured default
metric. -/
theorem achievementCalculator_covers_default_metrics_witness :
    ∃ (a : Achievement) (t' : ℚ),
      recGet (calculateAchievementPercentage []) "Acres Secured" = some a ∧
      t' = (if sumTargets "Acres Secured" [] = 0 then (5 : ℚ)
            else sumTargets "Acres Secured" []) ∧
      a.percentage =
        (if 0 < t' then min 100 (sumValues "Acres Secured" [] / t' * 100) else 0) ∧
      a.percentage ≤ 100 ∧
      (0 ≤ sumValues "Acres Secured" [] → 0 ≤ a.percentage) ∧
      a.status = (if 100 ≤ a.percentage then "ahead"
                  else if 75 ≤ a.percentage then "on-track" else "behind") ∧
      (countEntries "Acres Secured" [] = 0 → a.percentage = 0 ∧ a.status = "behind") :=
  achievementCalculator_covers_default_metrics []
    ⟨"2", "Acres Secured", "Monthly", some 0, some 5⟩ (by decide)

/-- Counterexample for C1 as frozen: with a single report whose Acres
Secured value is -5 against an accumulated target of 5, the achievement
percentage is min(100, -100) = -100, which lies outside the claimed
interval from 0 to 100. -/
theorem achievementCalculator_percentage_below_zero :
    recGet (calculateAchievementPercentage [negativeValueReport]) "Acres Secured" =
      some ⟨-100, "behind"⟩ ∧ ((-100 : ℚ) < 0) := by
  constructor
  · norm_num [calculateAchievementPercentage, negativeValueReport, accumAchieve,
      achieveFallback, achieveFinalize, DEFAULT_METRICS, recSet, recGet, min_def]
    decide
  · norm_num

theorem getDateRange_startDate_shape (timeFrame : String) (now : DateTime) :
    ∃ k : Int, 0 ≤ k ∧ (getDateRange timeFrame now).startDate = ⟨now.day - k, 0⟩ := by
  simp only [getDateRange]
  by_cases h1 : timeFrame = "week"
  · simp only [h1, if_pos]
    refine ⟨_, ?_, rfl⟩
    unfold DateTime.getDay
    split <;> omega
  · by_cases h2 : timeFrame = "month"
    · exact ⟨30, by norm_num, by simp [h1, h2]⟩
    · by_cases h3 : timeFrame = "quarter"
      · exact ⟨90, by norm_num, by simp [h1, h2, h3]⟩
      · by_cases h4 : timeFrame = "halfYear"
        · exact ⟨180, by norm_num, by simp [h1, h2, h3, h4]⟩
        · by_cases h5 : timeFrame = "year"
          · exact ⟨365, by norm_num, by simp [h1, h2, h3, h4, h5]⟩
          · exact ⟨30, by norm_num, by simp [h1, h2, h3, h4, h5]⟩

/-- C6: for every window name and every current instant, getDateRange
returns endDate equal to the current day at 23:59:59.999 and a startDate at
or before endDate; for week the startDate is the most recent Monday at
00:00:00 (rolling back 6 days when today is Sunday); for month the
startDate is 30 days before now at 00:00:00; and an unrecognized window
name yields exactly the month result rather than an error. -/
theorem timeWindowResolver_bounds (timeFrame : String) (now : DateTime) :
    (getDateRange timeFrame now).endDate = ⟨now.day, 86399999⟩ ∧
    (getDateRange timeFrame now).startDate.getTime ≤
      (getDateRange timeFrame now).endDate.getTime ∧
    (timeFrame = "week" →
      (getDateRange timeFrame now).startDate.msOfDay = 0 ∧
      (getDateRange timeFrame now).startDate.getDay = 1 ∧
      (getDateRange timeFrame now).startDate.day ≤ now.day ∧
      now.day - 6 ≤ (getDateRange timeFrame now).startDate.day ∧
      (now.getDay = 0 → (getDateRange timeFrame now).startDate.day = now.day - 6)) ∧
    (timeFrame = "month" → (getDateRange timeFrame now).startDate = ⟨now.day - 30, 0⟩) ∧
    (timeFrame ∉ (["week", "month", "quarter", "halfYear", "year"] : List String) →
      getDateRange timeFrame now = getDateRange "month" now) := by
  refine ⟨rfl, ?_, ?_, ?_, ?_⟩
  · obtain ⟨k, hk, hs⟩ := getDateRange_startDate_shape timeFrame now
    rw [hs]
    show (now.day - k) * 86400000 + 0 ≤ now.day * 86400000 + 86399999
    omega
  · intro h
    subst h
    refine ⟨rfl, ?_, ?_, ?_, ?_⟩
    · show ((now.day - if now.getDay = 0 then 6 else now.getDay - 1) + 4) % 7 = 1
      unfold DateTime.getDay
      split <;> omega
    · show (now.day - if now.getDay = 0 then 6 else now.getDay - 1) ≤ now.day
      unfold DateTime.getDay
      split <;> omega
    · show now.day - 6 ≤ now.day - if now.getDay = 0 then 6 else now.getDay - 1
      unfold DateTime.getDay
      split <;> omega
    · intro hsun
      show (now.day - if now.getDay = 0 then 6 else now.getDay - 1) = now.day - 6
      rw [if_pos hsun]
  · intro h
    simp [getDateRange, h]
  · intro h
    have h1 : timeFrame ≠ "week" := fun hc => h (by rw [hc]; simp)
    have h2 : timeFrame ≠ "month" := fun hc => h (by rw [hc]; simp)
    have h3 : timeFrame ≠ "quarter" := fun hc => h (by rw [hc]; simp)
    have h4 : timeFrame ≠ "halfYear" := fun hc => h (by rw [hc]; simp)
    have h5 : timeFrame ≠ "year" := fun hc => h (by rw [hc]; simp)
    simp [getDateRange, h1, h2, h3, h4, h5]

/-- Witness for C6 at an unrecognized window name and a concrete Sunday
instant (day index 3 of the epoch era is a Sunday). -/
theorem timeWindowResolver_bounds_witness :
    getDateRange "decade" ⟨3, 51⟩ = getDateRange "month" ⟨3, 51⟩ ∧
    (getDateRange "week" ⟨3, 51⟩).startDate.day = 3 - 6 :=
  ⟨(timeWindowResolver_bounds "decade" ⟨3, 51⟩).2.2.2.2 (by decide),
   ((timeWindowResolver_bounds "week" ⟨3, 51⟩).2.2.1 rfl).2.2.2.2 (by decide)⟩

theorem byWeekEndingDesc_trans :
    ∀ a b c : WeeklyReport, byWeekEndingDesc a b = true → byWeekEndingDesc b c = true →
      byWeekEndingDesc a c = true := by
  intro a b c h1 h2
  simp only [byWeekEndingDesc, decide_eq_true_eq] at *
  exact le_trans h2 h1

theorem byWeekEndingDesc_total :
    ∀ a b : WeeklyReport, (byWeekEndingDesc a b || byWeekEndingDesc b a) = true := by
  intro a b
  simp only [byWeekEndingDesc, Bool.or_eq_true, decide_eq_true_eq]
  exact le_total _ _

/-- C3: the filter/sort stage keeps exactly the reports whose weekEndingDate
or createdAt lies within the window inclusive (OR-inclusion over the two
date dimensions), and returns the kept reports sorted in descending order
of weekEndingDate. -/
theorem filterSortStage_window_and_order (reports : List WeeklyReport)
    (startDate endDate : DateTime) :
    (∀ r, r ∈ getReportsByDateRange reports startDate endDate ↔
        r ∈ reports ∧ reportInRange startDate endDate r = true) ∧
    (getReportsByDateRange reports startDate endDate).Perm
      (reports.filter (reportInRange startDate endDate)) ∧
    List.Pairwise (fun a b => b.weekEndingDate.getTime ≤ a.weekEndingDate.getTime)
      (getReportsByDateRange reports startDate endDate) := by
  have hperm : (getReportsByDateRange reports startDate endDate).Perm
      (reports.filter (reportInRange startDate endDate)) :=
    List.mergeSort_perm _ _
  refine ⟨?_, hperm, ?_⟩
  · intro r
    rw [hperm.mem_iff, List.mem_filter]
  · have hs := List.sorted_mergeSort byWeekEndingDesc_trans byWeekEndingDesc_total
      (reports.filter (reportInRange startDate endDate))
    exact hs.imp (fun h => by simpa [byWeekEndingDesc, decide_eq_true_eq] using h)

/-- C9: the filter/sort stage is idempotent; applying it to its own output
for the same window returns the same reports in the same order. -/
theorem filterSortStage_idempotent (reports : List WeeklyReport)
    (startDate endDate : DateTime) :
    getReportsByDateRange (getReportsByDateRange reports startDate endDate)
        startDate endDate =
      getReportsByDateRange reports startDate endDate := by
  unfold getReportsByDateRange
  have hmem : ∀ r ∈ (reports.filter (reportInRange startDate endDate)).mergeSort
      byWeekEndingDesc, reportInRange startDate endDate r = true := by
    intro r hr
    exact List.of_mem_filter ((List.mergeSort_perm _ byWeekEndingDesc).mem_iff.mp hr)
  rw [List.filter_eq_self.mpr hmem]
  exact List.mergeSort_of_sorted
    (List.sorted_mergeSort byWeekEndingDesc_trans byWeekEndingDesc_total _)

/-- C5: merging two same-day entries in the series builder sums the values
and takes the max of the targets, and feeding the two entries in either
order yields an identical merged result. -/
theorem seriesBuilder_merge_commutative (dataMap : List (Int × SeriesPoint))
    (d : Int) (v1 t1 v2 t2 : ℚ) :
    addToDataMap (addToDataMap dataMap d v1 t1) d v2 t2 =
      addToDataMap (addToDataMap dataMap d v2 t2) d v1 t1 ∧
    addToDataMap (addToDataMap [] d v1 t1) d v2 t2 =
      [(d, ⟨d, v1 + v2, max t1 t2⟩)] := by
  constructor
  · unfold addToDataMap
    rw [recSet_recSet, recSet_recSet]
    congr 1
    funext o
    cases o with
    | none =>
      show SeriesPoint.mk d (v1 + v2) (max t1 t2) = SeriesPoint.mk d (v2 + v1) (max t2 t1)
      rw [add_comm v1 v2, max_comm t1 t2]
    | some ex =>
      show SeriesPoint.mk d (ex.value + v1 + v2) (max (max ex.target t1) t2) =
        SeriesPoint.mk d (ex.value + v2 + v1) (max (max ex.target t2) t1)
      rw [add_right_comm ex.value v1 v2, sup_right_comm ex.target t1 t2]
  · unfold addToDataMap
    rw [recSet_recSet]
    rfl

theorem foldPMR_totals (metricTitle : String) (defT : ℚ) :
    ∀ (reports : List WeeklyReport) (st : List (Int × SeriesPoint) × ℚ × ℚ × ℚ),
      defT = defaultTargetFor metricTitle →
      (reports.foldl (processMetricReport metricTitle defT) st).2 =
        (st.2.1 + entryValueSum metricTitle reports,
         st.2.2.1 + entryTargetSum metricTitle reports,
         st.2.2.2 + (entryCount metricTitle reports : ℚ)) := by
  intro reports
  induction reports with
  | nil =>
    intro st hdefT
    simp [entryValueSum, entryTargetSum, entryCount]
  | cons r rs ih =>
    intro st hdefT
    rw [List.foldl_cons, ih _ hdefT]
    cases hfind : r.metrics.find? (fun m => m.title = metricTitle) with
    | some mE =>
      simp only [processMetricReport, hfind, entryValueSum, entryTargetSum, entryCount,
        entryValue, entryTarget, List.map_cons, List.sum_cons, hdefT, Prod.mk.injEq]
      refine ⟨by ring, by ring, ?_⟩
      push_cast
      ring
    | none =>
      simp only [processMetricReport, hfind, entryValueSum, entryTargetSum, entryCount,
        entryValue, entryTarget, List.map_cons, List.sum_cons, Prod.mk.injEq]
      refine ⟨by ring, by ring, ?_⟩
      push_cast
      ring

theorem foldPMR_map_nil (metricTitle : String) (defT : ℚ) :
    ∀ (reports : List WeeklyReport) (st : List (Int × SeriesPoint) × ℚ × ℚ × ℚ),
      (reports.foldl (processMetricReport metricTitle defT) st).1 = [] →
      st.1 = [] ∧ entryCount metricTitle reports = 0 := by
  intro reports
  induction reports with
  | nil =>
    intro st h
    exact ⟨h, rfl⟩
  | cons r rs ih =>
    intro st h
    rw [List.foldl_cons] at h
    obtain ⟨h1, h2⟩ := ih _ h
    cases hfind : r.metrics.find? (fun m => m.title = metricTitle) with
    | some mE =>
      simp only [processMetricReport, hfind, addToDataMap] at h1
      exact absurd h1 (recSet_ne_nil _ _ _)
    | none =>
      simp only [processMetricReport, hfind] at h1
      refine ⟨h1, ?_⟩
      simp only [entryCount, List.map_cons, List.sum_cons, hfind]
      rw [entryCount] at h2
      omega

theorem entryCount_eq_zero (metricTitle : String) {reports : List WeeklyReport}
    (h : entryCount metricTitle reports = 0) :
    entryValueSum metricTitle reports = 0 ∧ entryTargetSum metricTitle reports = 0 := by
  induction reports with
  | nil => simp [entryValueSum, entryTargetSum]
  | cons r rs ih =>
    rw [entryCount, List.map_cons, List.sum_cons] at h
    cases hfind : r.metrics.find? (fun m => m.title = metricTitle) with
    | some mE =>
      simp only [hfind] at h
      exact absurd h (by omega)
    | none =>
      simp only [hfind] at h
      have h2 : entryCount metricTitle rs = 0 := by rw [entryCount]; omega
      obtain ⟨hv, ht⟩ := ih h2
      constructor
      · rw [entryValueSum, List.map_cons, List.sum_cons, entryValue, hfind]
        simpa [entryValueSum] using hv
      · rw [entryTargetSum, List.map_cons, List.sum_cons, entryTarget, hfind]
        simpa [entryTargetSum] using ht

theorem seriesPoint_map_eta (l : List SeriesPoint) :
    l.map (fun p => SeriesPoint.mk p.date p.value p.target) = l :=
  List.map_id' l

theorem byDateAsc_trans :
    ∀ a b c : SeriesPoint, decide (a.date ≤ b.date) = true →
      decide (b.date ≤ c.date) = true → decide (a.date ≤ c.date) = true := by
  intro a b c h1 h2
  simp only [decide_eq_true_eq] at *
  omega

theorem byDateAsc_total :
    ∀ a b : SeriesPoint, (decide (a.date ≤ b.date) || decide (b.date ≤ a.date)) = true := by
  intro a b
  simp only [Bool.or_eq_true, decide_eq_true_eq]
  omega

theorem gpm_data_nil_sums (reports : List WeeklyReport) (metricTitle : String)
    (hd : ((List.map Prod.snd (reports.foldl (processMetricReport metricTitle
        (defaultTargetFor metricTitle)) ([], 0, 0, 0)).1).mergeSort
        (fun a b => decide (a.date ≤ b.date))) = []) :
    entryValueSum metricTitle reports = 0 ∧ entryTargetSum metricTitle reports = 0 := by
  have hperm := List.mergeSort_perm
    (List.map Prod.snd (reports.foldl (processMetricReport metricTitle
      (defaultTargetFor metricTitle)) ([], 0, 0, 0)).1)
    (fun a b => decide (a.date ≤ b.date))
  rw [hd] at hperm
  have hmapnil := List.map_eq_nil_iff.mp (List.perm_nil.mp hperm.symm)
  obtain ⟨-, hcount⟩ := foldPMR_map_nil metricTitle (defaultTargetFor metricTitle)
    reports ([], 0, 0, 0) hmapnil
  exact entryCount_eq_zero metricTitle hcount

theorem gpm_completionRate (reports : List WeeklyReport) (metricTitle : String) :
    (getPerformanceByMetric reports metricTitle).completionRate =
      (if 0 < entryTargetSum metricTitle reports
       then entryValueSum metricTitle reports / entryTargetSum metricTitle reports * 100
       else 0) := by
  have hst : (reports.foldl (processMetricReport metricTitle (defaultTargetFor metricTitle))
      ([], 0, 0, 0)).2 =
      (entryValueSum metricTitle reports, entryTargetSum metricTitle reports,
        (entryCount metricTitle reports : ℚ)) := by
    simpa using foldPMR_totals metricTitle (defaultTargetFor metricTitle) reports
      ([], 0, 0, 0) rfl
  simp only [getPerformanceByMetric]
  by_cases hd : ((List.map Prod.snd (reports.foldl (processMetricReport metricTitle
      (defaultTargetFor metricTitle)) ([], 0, 0, 0)).1).mergeSort
      (fun a b => decide (a.date ≤ b.date))) = []
  · rw [if_pos hd]
    obtain ⟨-, hts⟩ := gpm_data_nil_sums reports metricTitle hd
    rw [hts]
    norm_num
  · rw [if_neg hd, hst]

/-- C10: the completion rate of the per-metric series builder uses a
denominator that adds each contributing report target separately, one
addition per report containing the metric; for the two same-day reports
with targets 5 and 10 the denominator is 15 even though the merged chart
point for that day carries only the max target 10, so the rate is 100/3
rather than the 50 a max-merged denominator would give. -/
theorem seriesBuilder_completionRate_per_report_targets :
    (∀ (reports : List WeeklyReport) (metricTitle : String),
      (getPerformanceByMetric reports metricTitle).completionRate =
        (if 0 < entryTargetSum metricTitle reports
         then entryValueSum metricTitle reports / entryTargetSum metricTitle reports * 100
         else 0)) ∧
    (getPerformanceByMetric [sameDayReportA, sameDayReportB] "Acres Secured").data =
      [⟨0, 5, 10⟩] ∧
    (getPerformanceByMetric [sameDayReportA, sameDayReportB] "Acres Secured").completionRate =
      100 / 3 ∧
    (getPerformanceByMetric [sameDayReportA, sameDayReportB] "Acres Secured").completionRate ≠
      5 / 10 * 100 := by
  have hdt : defaultTargetFor "Acres Secured" = 5 := by rfl
  refine ⟨gpm_completionRate, ?_, ?_, ?_⟩
  · norm_num [getPerformanceByMetric, processMetricReport, addToDataMap, hdt,
      recSet, recGet, sameDayReportA, sameDayReportB,
      List.mergeSort_singleton, max_def]
  · norm_num [getPerformanceByMetric, processMetricReport, addToDataMap, hdt,
      recSet, recGet, sameDayReportA, sameDayReportB,
      List.mergeSort_singleton, max_def]
  · norm_num [getPerformanceByMetric, processMetricReport, addToDataMap, hdt,
      recSet, recGet, sameDayReportA, sameDayReportB,
      List.mergeSort_singleton, max_def]

/-- C8: the per-metric series builder outputs a series sorted ascending by
day; a report whose matching entry lacks a numeric targetValue contributes
a point whose target is the configured default target of that metric from
the metric-definition list; and an empty input yields an empty series with
zero total, average and completion rate. -/
theorem seriesBuilder_sorted_default_target_empty :
    (∀ (reports : List WeeklyReport) (metricTitle : String),
      List.Pairwise (fun a b => a.date ≤ b.date)
        (getPerformanceByMetric reports metricTitle).data) ∧
    (∀ dm ∈ DEFAULT_METRICS, ∀ (r : WeeklyReport) (mE : MetricData),
      r.metrics.find? (fun m => m.title = dm.title) = some mE →
      mE.targetValue = none →
      (getPerformanceByMetric [r] dm.title).data =
        [⟨r.weekEndingDate.day, mE.value.getD 0, dm.targetValue.getD 0⟩]) ∧
    (∀ metricTitle : String, getPerformanceByMetric [] metricTitle = ⟨[], 0, 0, 0⟩) := by
  refine ⟨?_, ?_, ?_⟩
  · intro reports metricTitle
    simp only [getPerformanceByMetric]
    by_cases hd : ((List.map Prod.snd (reports.foldl (processMetricReport metricTitle
        (defaultTargetFor metricTitle)) ([], 0, 0, 0)).1).mergeSort
        (fun a b => decide (a.date ≤ b.date))) = []
    · rw [if_pos hd]
      simp
    · rw [if_neg hd]
      have hs := (List.sorted_mergeSort byDateAsc_trans byDateAsc_total
        (List.map Prod.snd (reports.foldl (processMetricReport metricTitle
          (defaultTargetFor metricTitle)) ([], 0, 0, 0)).1)).imp
        (fun {a b} h => (by simpa using h : a.date ≤ b.date))
      simpa [seriesPoint_map_eta] using hs
  · intro dm hdm r mE hfind hnone
    fin_cases hdm
    · have hdt : defaultTargetFor "New Accounts Outreach" = 10 := by rfl
      norm_num [getPerformanceByMetric, processMetricReport, hfind, hnone, addToDataMap,
        recSet, hdt, List.mergeSort_singleton]
    · have hdt : defaultTargetFor "Acres Secured" = 5 := by rfl
      norm_num [getPerformanceByMetric, processMetricReport, hfind, hnone, addToDataMap,
        recSet, hdt, List.mergeSort_singleton]
    · have hdt : defaultTargetFor "Quotations Sent" = 20 := by rfl
      norm_num [getPerformanceByMetric, processMetricReport, hfind, hnone, addToDataMap,
        recSet, hdt, List.mergeSort_singleton]
    · have hdt : defaultTargetFor "Quotation Closing Rate" = 20 := by rfl
      norm_num [getPerformanceByMetric, processMetricReport, hfind, hnone, addToDataMap,
        recSet, hdt, List.mergeSort_singleton]
  · intro metricTitle
    simp [getPerformanceByMetric]

/-- Witness for C8: a report lacking a numeric target for Quotations Sent
yields a single point carrying the configured default target 20. -/
theorem seriesBuilder_sorted_default_target_empty_witness :
    (getPerformanceByMetric [noTargetReport] "Quotations Sent").data = [⟨12, 7, 20⟩] := by
  have h := seriesBuilder_sorted_default_target_empty.2.1
    ⟨"3", "Quotations Sent", "Monthly", some 0, some 20⟩ (by decide) noTargetReport
    ⟨"3", "Quotations Sent", "Monthly", some 7, none⟩ (by decide) rfl
  simpa using h

theorem foldl_pair_snd {A B C : Type} (f : A → C → A) (g : B → C → B) :
    ∀ (l : List C) (st : A × B),
      (l.foldl (fun acc x => (f acc.1 x, g acc.2 x)) st).2 = l.foldl g st.2 := by
  intro l
  induction l with
  | nil => intro st; rfl
  | cons x xs ih =>
    intro st
    rw [List.foldl_cons, List.foldl_cons, ih]

theorem processPerfReport_snd (st : List (Int × List (String × ℚ)) × List (String × (ℚ × ℚ × ℕ)))
    (r : WeeklyReport) :
    (processPerfReport st r).2 = r.metrics.foldl perfTotalsStep st.2 :=
  foldl_pair_snd (perfByDateStep r.createdAt.day) perfTotalsStep r.metrics _

theorem foldl_processPerfReport_snd :
    ∀ (reports : List WeeklyReport)
      (st : List (Int × List (String × ℚ)) × List (String × (ℚ × ℚ × ℕ))),
      (reports.foldl processPerfReport st).2 =
        reports.foldl (fun tot r => r.metrics.foldl perfTotalsStep tot) st.2 := by
  intro reports
  induction reports with
  | nil => intro st; rfl
  | cons r rs ih =>
    intro st
    rw [List.foldl_cons, List.foldl_cons, ih, processPerfReport_snd]

theorem recGet_perfTotals_some (title : String) :
    ∀ (metrics : List MetricData) (tot : List (String × (ℚ × ℚ × ℕ))) (s t : ℚ) (c : ℕ),
      recGet tot title = some (s, t, c) →
      recGet (metrics.foldl perfTotalsStep tot) title =
        some (s + metricsValueSum title metrics, t + metricsTargetSum title metrics,
          c + metricsCount title metrics) := by
  intro metrics
  induction metrics with
  | nil =>
    intro tot s t c h
    simp [metricsValueSum, metricsTargetSum, metricsCount, h]
  | cons m ms ih =>
    intro tot s t c h
    by_cases hm : m.title = title
    · have h1 : recGet (perfTotalsStep tot m) title =
          some (s + m.value.getD 0, t + m.targetValue.getD 0, c + 1) := by
        unfold perfTotalsStep
        rw [hm, recGet_recSet_self, h]
      have hv : metricsValueSum title (m :: ms) =
          m.value.getD 0 + metricsValueSum title ms := by
        simp [metricsValueSum, List.filter_cons, hm]
      have ht : metricsTargetSum title (m :: ms) =
          m.targetValue.getD 0 + metricsTargetSum title ms := by
        simp [metricsTargetSum, List.filter_cons, hm]
      have hc2 : metricsCount title (m :: ms) = metricsCount title ms + 1 := by
        simp [metricsCount, List.filter_cons, hm]
      rw [List.foldl_cons, ih _ _ _ _ h1, hv, ht, hc2]
      exact congrArg some (by simp only [Prod.mk.injEq]; exact ⟨by ring, by ring, by omega⟩)
    · have h1 : recGet (perfTotalsStep tot m) title = some (s, t, c) := by
        unfold perfTotalsStep
        rw [recGet_recSet_ne _ _ _ _ (fun hc => hm hc.symm), h]
      rw [List.foldl_cons, ih _ _ _ _ h1]
      simp [metricsValueSum, metricsTargetSum, metricsCount, List.filter_cons, hm]

theorem metricsCount_zero {title : String} {metrics : List MetricData}
    (h : metricsCount title metrics = 0) :
    metricsValueSum title metrics = 0 ∧ metricsTargetSum title metrics = 0 := by
  have hnil : metrics.filter (fun m => m.title = title) = [] := List.length_eq_zero.mp h
  simp [metricsValueSum, metricsTargetSum, hnil]

theorem recGet_perfTotals_none (title : String) :
    ∀ (metrics : List MetricData) (tot : List (String × (ℚ × ℚ × ℕ))),
      recGet tot title = none →
      recGet (metrics.foldl perfTotalsStep tot) title =
        (if metricsCount title metrics = 0 then none
         else some (metricsValueSum title metrics, metricsTargetSum title metrics,
           metricsCount title metrics)) := by
  intro metrics
  induction metrics with
  | nil =>
    intro tot h
    simp [metricsValueSum, metricsTargetSum, metricsCount, h]
  | cons m ms ih =>
    intro tot h
    by_cases hm : m.title = title
    · have h1 : recGet (perfTotalsStep tot m) title =
          some (0 + m.value.getD 0, 0 + m.targetValue.getD 0, 0 + 1) := by
        unfold perfTotalsStep
        rw [hm, recGet_recSet_self, h]
      have hv : metricsValueSum title (m :: ms) =
          m.value.getD 0 + metricsValueSum title ms := by
        simp [metricsValueSum, List.filter_cons, hm]
      have ht : metricsTargetSum title (m :: ms) =
          m.targetValue.getD 0 + metricsTargetSum title ms := by
        simp [metricsTargetSum, List.filter_cons, hm]
      have hc2 : metricsCount title (m :: ms) = metricsCount title ms + 1 := by
        simp [metricsCount, List.filter_cons, hm]
      rw [List.foldl_cons, recGet_perfTotals_some title ms _ _ _ _ h1, hc2,
        if_neg (by omega), hv, ht]
      exact congrArg some (by simp only [Prod.mk.injEq]; exact ⟨by ring, by ring, by omega⟩)
    · have h1 : recGet (perfTotalsStep tot m) title = none := by
        unfold perfTotalsStep
        rw [recGet_recSet_ne _ _ _ _ (fun hc => hm hc.symm), h]
      rw [List.foldl_cons, ih _ h1]
      simp [metricsValueSum, metricsTargetSum, metricsCount, List.filter_cons, hm]

theorem recGet_reportsTotals_some (title : String) :
    ∀ (reports : List WeeklyReport) (tot : List (String × (ℚ × ℚ × ℕ))) (s t : ℚ) (c : ℕ),
      recGet tot title = some (s, t, c) →
      recGet (reports.foldl (fun tot r => r.metrics.foldl perfTotalsStep tot) tot) title =
        some (s + sumValues title reports, t + sumTargets title reports,
          c + countEntries title reports) := by
  intro reports
  induction reports with
  | nil =>
    intro tot s t c h
    simp [sumValues, sumTargets, countEntries, h]
  | cons r rs ih =>
    intro tot s t c h
    have hv : sumValues title (r :: rs) =
        metricsValueSum title r.metrics + sumValues title rs := by
      simp [sumValues]
    have ht : sumTargets title (r :: rs) =
        metricsTargetSum title r.metrics + sumTargets title rs := by
      simp [sumTargets]
    have hc2 : countEntries title (r :: rs) =
        metricsCount title r.metrics + countEntries title rs := by
      simp [countEntries]
    rw [List.foldl_cons, ih _ _ _ _ (recGet_perfTotals_some title r.metrics tot s t c h),
      hv, ht, hc2]
    exact congrArg some (by simp only [Prod.mk.injEq]; exact ⟨by ring, by ring, by omega⟩)

theorem recGet_reportsTotals_none (title : String) :
    ∀ (reports : List WeeklyReport) (tot : List (String × (ℚ × ℚ × ℕ))),
      recGet tot title = none →
      recGet (reports.foldl (fun tot r => r.metrics.foldl perfTotalsStep tot) tot) title =
        (if countEntries title reports = 0 then none
         else some (sumValues title reports, sumTargets title reports,
           countEntries title reports)) := by
  intro reports
  induction reports with
  | nil =>
    intro tot h
    simp [sumValues, sumTargets, countEntries, h]
  | cons r rs ih =>
    intro tot h
    rw [List.foldl_cons]
    by_cases hc0 : metricsCount title r.metrics = 0
    · have hstep : recGet (r.metrics.foldl perfTotalsStep tot) title = none := by
        rw [recGet_perfTotals_none title r.metrics tot h, if_pos hc0]
      rw [ih _ hstep]
      obtain ⟨hv0, ht0⟩ := metricsCount_zero hc0
      have hcnt : countEntries title (r :: rs) = countEntries title rs := by
        simp [countEntries, hc0]
      have hsv : sumValues title (r :: rs) = sumValues title rs := by
        simp [sumValues, hv0]
      have hst : sumTargets title (r :: rs) = sumTargets title rs := by
        simp [sumTargets, ht0]
      rw [hcnt, hsv, hst]
    · have hstep : recGet (r.metrics.foldl perfTotalsStep tot) title =
          some (metricsValueSum title r.metrics, metricsTargetSum title r.metrics,
            metricsCount title r.metrics) := by
        rw [recGet_perfTotals_none title r.metrics tot h, if_neg hc0]
      have hv : sumValues title (r :: rs) =
          metricsValueSum title r.metrics + sumValues title rs := by
        simp [sumValues]
      have ht : sumTargets title (r :: rs) =
          metricsTargetSum title r.metrics + sumTargets title rs := by
        simp [sumTargets]
      have hc2 : countEntries title (r :: rs) =
          metricsCount title r.metrics + countEntries title rs := by
        simp [countEntries]
      rw [recGet_reportsTotals_some title rs _ _ _ _ hstep, hc2, if_neg (by omega), hv, ht]

theorem recGet_map_totals (l : List (String × (ℚ × ℚ × ℕ))) (k : String) :
    recGet (l.map (fun p => (p.1, p.2.1))) k = (recGet l k).map (fun v => v.1) :=
  recGet_map (fun _ v => v.1) l k

theorem recGet_map_averages (l : List (String × (ℚ × ℚ × ℕ))) (k : String) :
    recGet (l.map (fun p => (p.1, if 0 < p.2.2.2 then p.2.1 / (p.2.2.2 : ℚ) else 0))) k =
      (recGet l k).map (fun v => if 0 < v.2.2 then v.1 / (v.2.2 : ℚ) else 0) :=
  recGet_map (fun _ v => if 0 < v.2.2 then v.1 / (v.2.2 : ℚ) else 0) l k

theorem recGet_map_completion (l : List (String × (ℚ × ℚ × ℕ))) (k : String) :
    recGet (l.map (fun p => (p.1, if 0 < p.2.2.1 then p.2.1 / p.2.2.1 * 100 else 0))) k =
      (recGet l k).map (fun v => if 0 < v.2.1 then v.1 / v.2.1 * 100 else 0) :=
  recGet_map (fun _ v => if 0 < v.2.1 then v.1 / v.2.1 * 100 else 0) l k

/-- C4: the metric aggregator accumulates per metric title sum, target and
count over all metric entries with missing fields defaulting to 0, and for
every tracked title outputs totals equal to the sum, averages equal to
sum/count, and completion equal to (sum/target)*100 when the target is
positive and 0 otherwise; the completion ratio is unclamped and exceeds 100
on the concrete over-achieving report. -/
theorem metricAggregator_outputs (reports : List WeeklyReport) (title : String) :
    (0 < countEntries title reports →
      recGet (getMetricsPerformance reports).totals title =
        some (sumValues title reports) ∧
      recGet (getMetricsPerformance reports).averages title =
        some (sumValues title reports / (countEntries title reports : ℚ)) ∧
      recGet (getMetricsPerformance reports).completion title =
        some (if 0 < sumTargets title reports
              then sumValues title reports / sumTargets title reports * 100 else 0)) ∧
    (countEntries title reports = 0 →
      recGet (getMetricsPerformance reports).totals title = none) ∧
    recGet (getMetricsPerformance [excessReport]).completion "Acres Secured" =
      some 200 := by
  have hsnd : (reports.foldl processPerfReport ([], [])).2 =
      reports.foldl (fun tot r => r.metrics.foldl perfTotalsStep tot) [] :=
    foldl_processPerfReport_snd reports ([], [])
  have hkey := recGet_reportsTotals_none title reports [] rfl
  refine ⟨?_, ?_, ?_⟩
  · intro hc
    rw [if_neg (by omega)] at hkey
    refine ⟨?_, ?_, ?_⟩
    · simp only [getMetricsPerformance]
      rw [recGet_map_totals, hsnd, hkey]
      rfl
    · simp only [getMetricsPerformance]
      rw [recGet_map_averages, hsnd, hkey]
      simp [hc]
    · simp only [getMetricsPerformance]
      rw [recGet_map_completion, hsnd, hkey]
      rfl
  · intro hc
    rw [if_pos hc] at hkey
    simp only [getMetricsPerformance]
    rw [recGet_map_totals, hsnd, hkey]
    rfl
  · norm_num [getMetricsPerformance, processPerfReport, perfByDateStep, perfTotalsStep,
      excessReport, recSet, recGet]

/-- Witness for C4 at a single over-achieving report: the totals entry for
Acres Secured is the raw sum 10. -/
theorem metricAggregator_outputs_witness :
    recGet (getMetricsPerformance [excessReport]).totals "Acres Secured" = some 10 := by
  have h := (metricAggregator_outputs [excessReport] "Acres Secured").1 (by decide)
  rw [h.1]
  norm_num [sumValues, metricsValueSum, excessReport]

theorem progValue_foldl_monthlyStep (title : String) :
    ∀ (metrics : List MetricData) (prog : List (String × MonthlyProgressEntry)),
      progValue (metrics.foldl monthlyStep prog) title =
        progValue prog title + monthlyMetricsSum title metrics := by
  intro metrics
  induction metrics with
  | nil =>
    intro prog
    simp [monthlyMetricsSum]
  | cons m ms ih =>
    intro prog
    rw [List.foldl_cons, ih]
    by_cases hf : m.frequency = "Monthly"
    · by_cases hm : m.title = title
      · have hstep : progValue (monthlyStep prog m) title =
            progValue prog title + m.value.getD 0 := by
          unfold monthlyStep progValue
          rw [if_pos hf, hm, recGet_recSet_self]
          cases hprev : recGet prog title with
          | none => simp
          | some e => simp
        have hsum : monthlyMetricsSum title (m :: ms) =
            m.value.getD 0 + monthlyMetricsSum title ms := by
          simp [monthlyMetricsSum, List.filter_cons, hf, hm]
        rw [hstep, hsum]
        ring
      · have hstep : progValue (monthlyStep prog m) title = progValue prog title := by
          unfold monthlyStep progValue
          rw [if_pos hf, recGet_recSet_ne _ _ _ _ (fun hc => hm hc.symm)]
        have hsum : monthlyMetricsSum title (m :: ms) = monthlyMetricsSum title ms := by
          simp [monthlyMetricsSum, List.filter_cons, hm]
        rw [hstep, hsum]
    · have hstep : progValue (monthlyStep prog m) title = progValue prog title := by
        unfold monthlyStep
        rw [if_neg hf]
      have hsum : monthlyMetricsSum title (m :: ms) = monthlyMetricsSum title ms := by
        simp [monthlyMetricsSum, List.filter_cons, hf]
      rw [hstep, hsum]

theorem progValue_foldl_reports (title : String) :
    ∀ (reports : List WeeklyReport) (prog : List (String × MonthlyProgressEntry)),
      progValue (reports.foldl (fun prog report => report.metrics.foldl monthlyStep prog)
          prog) title =
        progValue prog title + monthlySumValues title reports := by
  intro reports
  induction reports with
  | nil =>
    intro prog
    simp [monthlySumValues]
  | cons r rs ih =>
    intro prog
    rw [List.foldl_cons, ih, progValue_foldl_monthlyStep]
    have hsum : monthlySumValues title (r :: rs) =
        monthlyMetricsSum title r.metrics + monthlySumValues title rs := by
      simp [monthlySumValues]
    rw [hsum]
    ring

theorem progValue_calculateMonthlyProgress (title : String)
    (reports : List WeeklyReport) :
    progValue (calculateMonthlyProgress reports) title = monthlySumValues title reports := by
  unfold calculateMonthlyProgress
  rw [progValue_foldl_reports]
  simp [progValue, recGet]

/-- C2: for every Monthly metric, every report store, every month window
and every day of the month, the suggested weekly value equals the ceiling
of max(0, target - priorAccumulated) divided by the weeks remaining in the
month (5 minus the week of month computed from the day), it is 0 whenever
the week of month is at least 5 or the prior accumulated value reaches the
target, and the prior accumulated value is the sum of the values of
Monthly-cadence entries across the submitter's submitted reports created
inside the month window. -/
theorem monthlySuggestion_formula (metric : MetricData) (allReports : List WeeklyReport)
    (userName : String) (firstDayOfMonth lastDayOfMonth : DateTime) (dayOfMonth : Int)
    (hfreq : metric.frequency = "Monthly") (_hd1 : 1 ≤ dayOfMonth) (_hd2 : dayOfMonth ≤ 31) :
    progValue (calculateMonthlyProgress
        (getCurrentMonthReports allReports userName firstDayOfMonth lastDayOfMonth))
        metric.title =
      monthlySumValues metric.title
        (allReports.filter (fun r =>
          decide (r.userId = userName) && decide (r.status = "submitted") &&
          decide (firstDayOfMonth.getTime ≤ r.createdAt.getTime) &&
          decide (r.createdAt.getTime ≤ lastDayOfMonth.getTime))) ∧
    getSuggestedWeeklyValue metric
        (calculateMonthlyProgress
          (getCurrentMonthReports allReports userName firstDayOfMonth lastDayOfMonth))
        dayOfMonth =
      (if 5 ≤ getCurrentWeekOfMonth dayOfMonth then 0
       else ((⌈(max 0 (metric.targetValue.getD 0 -
            progValue (calculateMonthlyProgress
              (getCurrentMonthReports allReports userName firstDayOfMonth lastDayOfMonth))
              metric.title)) /
          ((5 - getCurrentWeekOfMonth dayOfMonth : ℤ) : ℚ)⌉ : ℤ) : ℚ)) ∧
    (5 ≤ getCurrentWeekOfMonth dayOfMonth →
      getSuggestedWeeklyValue metric
        (calculateMonthlyProgress
          (getCurrentMonthReports allReports userName firstDayOfMonth lastDayOfMonth))
        dayOfMonth = 0) ∧
    (metric.targetValue.getD 0 ≤
        progValue (calculateMonthlyProgress
          (getCurrentMonthReports allReports userName firstDayOfMonth lastDayOfMonth))
          metric.title →
      getSuggestedWeeklyValue metric
        (calculateMonthlyProgress
          (getCurrentMonthReports allReports userName firstDayOfMonth lastDayOfMonth))
        dayOfMonth = 0) := by
  have hperm := List.mergeSort_perm
    (allReports.filter (fun r =>
      decide (r.userId = userName) && decide (r.status = "submitted") &&
      decide (firstDayOfMonth.getTime ≤ r.createdAt.getTime) &&
      decide (r.createdAt.getTime ≤ lastDayOfMonth.getTime)))
    (fun a b => decide (a.createdAt.getTime ≤ b.createdAt.getTime))
  have hprior : progValue (calculateMonthlyProgress
      (getCurrentMonthReports allReports userName firstDayOfMonth lastDayOfMonth))
      metric.title =
      monthlySumValues metric.title
        (allReports.filter (fun r =>
          decide (r.userId = userName) && decide (r.status = "submitted") &&
          decide (firstDayOfMonth.getTime ≤ r.createdAt.getTime) &&
          decide (r.createdAt.getTime ≤ lastDayOfMonth.getTime))) := by
    rw [progValue_calculateMonthlyProgress]
    unfold getCurrentMonthReports monthlySumValues
    exact (hperm.map _).sum_eq
  have hmain : getSuggestedWeeklyValue metric
      (calculateMonthlyProgress
        (getCurrentMonthReports allReports userName firstDayOfMonth lastDayOfMonth))
      dayOfMonth =
      (if 5 ≤ getCurrentWeekOfMonth dayOfMonth then 0
       else ((⌈(max 0 (metric.targetValue.getD 0 -
            progValue (calculateMonthlyProgress
              (getCurrentMonthReports allReports userName firstDayOfMonth lastDayOfMonth))
              metric.title)) /
          ((5 - getCurrentWeekOfMonth dayOfMonth : ℤ) : ℚ)⌉ : ℤ) : ℚ)) := by
    unfold getSuggestedWeeklyValue
    rw [hfreq]
    simp only [ne_eq, not_true_eq_false, if_false]
    by_cases hw : 5 - getCurrentWeekOfMonth dayOfMonth ≤ 0
    · rw [if_pos hw, if_pos (by omega)]
    · rw [if_neg hw, if_neg (by omega)]
      rfl
  refine ⟨hprior, hmain, ?_, ?_⟩
  · intro hw
    rw [hmain, if_pos hw]
  · intro hp
    rw [hmain]
    by_cases hw : 5 ≤ getCurrentWeekOfMonth dayOfMonth
    · rw [if_pos hw]
    · rw [if_neg hw]
      have hmax : max 0 (metric.targetValue.getD 0 -
          progValue (calculateMonthlyProgress
            (getCurrentMonthReports allReports userName firstDayOfMonth lastDayOfMonth))
            metric.title) = 0 :=
        max_eq_left (sub_nonpos.mpr hp)
      rw [hmax, zero_div, Int.ceil_zero]
      rfl

/-- Witness for C2: on day 10 (week 2, three weeks left) with prior
accumulated 4 of target 5, the suggestion is ceil(1/3) = 1. -/
theorem monthlySuggestion_formula_witness :
    getSuggestedWeeklyValue ⟨"2", "Acres Secured", "Monthly", some 0, some 5⟩
      (calculateMonthlyProgress (getCurrentMonthReports [aliceReport] "alice"
        ⟨0, 0⟩ ⟨30, 86399999⟩)) 10 = 1 := by
  have h := (monthlySuggestion_formula ⟨"2", "Acres Secured", "Monthly", some 0, some 5⟩
    [aliceReport] "alice" ⟨0, 0⟩ ⟨30, 86399999⟩ 10 rfl (by norm_num) (by norm_num)).2.1
  rw [h]
  have hceil : (⌈(1 : ℚ) / 3⌉ : ℤ) = 1 := by
    rw [Int.ceil_eq_iff]
    norm_num
  norm_num [getCurrentWeekOfMonth, progValue, calculateMonthlyProgress,
    getCurrentMonthReports, monthlyStep, aliceReport, recSet, recGet, DateTime.getTime,
    List.mergeSort_singleton, max_def, hceil]

/-- C7: no aggregation path surfaces a failure: when the report collaborator
fails the date-range fetch degrades to the empty list and both aggregators
return all-empty, all-zero structures, the same structures they return on
an empty report set, fabricating no data points; only the direct
single-report fetch propagates an error to its caller. -/
theorem aggregationPaths_degrade_without_error (err : String)
    (startDate endDate : DateTime) (metricTitle : String) :
    getReportsByDateRangeSafe (Except.error err) startDate endDate = [] ∧
    getMetricsPerformanceSafe (Except.error err) startDate endDate = ⟨[], [], [], []⟩ ∧
    getPerformanceByMetricSafe (Except.error err) startDate endDate metricTitle =
      ⟨[], 0, 0, 0⟩ ∧
    getMetricsPerformance [] = ⟨[], [], [], []⟩ ∧
    getPerformanceByMetric [] metricTitle = ⟨[], 0, 0, 0⟩ ∧
    getReportsByDateRange [] startDate endDate = [] ∧
    getReportById (Except.error err) = Except.error err ∧
    getReportById (Except.ok none) = Except.error "Report not found" := by
  refine ⟨rfl, ?_, ?_, ?_, ?_, ?_, rfl, rfl⟩
  · simp [getMetricsPerformanceSafe, getReportsByDateRangeSafe, getMetricsPerformance]
  · simp [getPerformanceByMetricSafe, getReportsByDateRangeSafe, getPerformanceByMetric]
  · simp [getMetricsPerformance]
  · simp [getPerformanceByMetric]
  · simp [getReportsByDateRange]

end LocationTracker
